import Mathlib

/-!
Verification of the TelegramBroadcastPanel scheduling and delivery engine.

The definitions below are a shallow embedding of `app.py` and `scheduler.py`:
the three SQLite tables become lists of rows, the Telegram `Bot` transport
becomes an injected function `BotCall → SendOutcome`, and each Python function
that the claims mention is translated into a Lean function of the same name
(snake_case kept where Lean allows).  Python's `set(...)` iteration order is
unspecified; it is modelled as first-occurrence order (`pySet`).
-/

namespace TBP

/-- Row of the `telegram_users` table (`app.py`, `init_db`).  The `tags`
column stores a JSON-serialised list of strings; the row keeps the list and
the serialisation is applied where the code serialises (`add_user`) or
queries (`get_users_by_tag`). -/
structure UserRow where
  chat_id : String
  username : String
  tags : List String
deriving Repr, DecidableEq

/-- Row of the `scheduled_messages` table (`app.py`, `init_db`). -/
structure MsgRow where
  id : Nat
  message_text : String
  target_ids : List String
  media_url : String
  media_type : String
  send_time : Nat
  status : String
deriving Repr, DecidableEq

/-- Row of the `message_logs` table (`app.py`, `init_db`). -/
structure LogEntry where
  chat_id : String
  send_time : Nat
  status : String
  error_details : Option String
deriving Repr, DecidableEq

/-- The whole SQLite database `users.db`. -/
structure DB where
  telegram_users : List UserRow
  scheduled_messages : List MsgRow
  message_logs : List LogEntry
deriving Repr, DecidableEq

/-- A call on the injected `telegram.Bot` transport: the three send methods
used by `send_scheduled_message_async` (`scheduler.py` 30-38) and the
immediate-send closure (`app.py` 247-255). -/
inductive BotCall where
  | sendPhoto (chat_id photo caption : String)
  | sendDocument (chat_id document caption : String)
  | sendMessage (chat_id text : String)
deriving Repr, DecidableEq

/-- Outcome of one transport call: success, a `TelegramError`, or any other
exception (the two `except` arms of the per-recipient loop). -/
inductive SendOutcome where
  | ok
  | telegramError (detail : String)
  | otherError (detail : String)
deriving Repr, DecidableEq

/-- Does `s` start with `pat`? -/
def startsWithL (pat s : List Char) : Bool :=
  match pat, s with
  | [], _ => true
  | _ :: _, [] => false
  | c :: ps, d :: ss => c == d && startsWithL ps ss

/-- Is `pat` a contiguous sublist of `s`? -/
def infixOfL (pat : List Char) : List Char → Bool
  | [] => pat.isEmpty
  | d :: ss => startsWithL pat (d :: ss) || infixOfL pat ss

/-- Python `pat in s` substring test. -/
def containsSub (s pat : String) : Bool :=
  infixOfL pat.data s.data

def blockedPhrase : String := "bot was blocked by the user"

/-- The media branching shared by `scheduler.py` 30-38 and `app.py` 247-255:
`if media_url and media_type:` with Python string truthiness (`""` falsy). -/
def mkBotCall (media_url media_type text chat_id : String) : BotCall :=
  if media_url ≠ "" ∧ media_type ≠ "" then
    if media_type = "photo" then .sendPhoto chat_id media_url text
    else if media_type = "document" then .sendDocument chat_id media_url text
    else .sendMessage chat_id text
  else .sendMessage chat_id text

/-- One iteration of the per-recipient loop: the transport call, the
increment of `sent_count` and the log entry written by `log_message`,
with the `TelegramError` arm mapping a "bot was blocked by the user"
message to `BLOCKED` and everything else to `FAILED`. -/
def attemptOne (bot : BotCall → SendOutcome) (now : Nat)
    (media_url media_type text chat_id : String) : Nat × LogEntry :=
  match bot (mkBotCall media_url media_type text chat_id) with
  | .ok => (1, ⟨chat_id, now, "SENT", none⟩)
  | .telegramError d =>
      (0, ⟨chat_id, now, if containsSub d blockedPhrase then "BLOCKED" else "FAILED", some d⟩)
  | .otherError d => (0, ⟨chat_id, now, "FAILED", some d⟩)

/-- The per-recipient loop over an (already deduplicated) recipient list,
returning `sent_count` and the log entries in iteration order. -/
def dispatchList (bot : BotCall → SendOutcome) (now : Nat)
    (media_url media_type text : String) : List String → Nat × List LogEntry
  | [] => (0, [])
  | c :: cs =>
    let a := attemptOne bot now media_url media_type text c
    let r := dispatchList bot now media_url media_type text cs
    (a.1 + r.1, a.2 :: r.2)

/-- Python `set(...)` applied to the recipient list, modelled with
first-occurrence iteration order (CPython set order is unspecified). -/
def pySetAux (seen : List String) : List String → List String
  | [] => []
  | x :: xs => if seen.contains x then pySetAux seen xs else x :: pySetAux (x :: seen) xs

def pySet (l : List String) : List String := pySetAux [] l

/-- The fan-out dispatch algorithm (`for chat_id in set(target_chat_ids)` in
`scheduler.py` 27-51, and identically `for chat_id in set(recipients)` in
`app.py` 244-268). -/
def dispatch (bot : BotCall → SendOutcome) (now : Nat)
    (media_url media_type text : String) (ids : List String) : Nat × List LogEntry :=
  dispatchList bot now media_url media_type text (pySet ids)

/-- `update_message_status` (`scheduler.py` 12-17):
`UPDATE scheduled_messages SET status = ? WHERE id = ?`. -/
def updateMessageStatus (db : DB) (msg_id : Nat) (st : String) : DB :=
  { db with scheduled_messages :=
      db.scheduled_messages.map (fun r => if r.id = msg_id then { r with status := st } else r) }

/-- `log_message` (`app.py` 140-146): append one row to `message_logs`. -/
def logMessage (db : DB) (chat_id : String) (now : Nat) (status : String)
    (error_details : Option String) : DB :=
  { db with message_logs := db.message_logs ++ [⟨chat_id, now, status, error_details⟩] }

/-- `get_pending_messages` (`app.py` 127-138):
`SELECT ... WHERE status = 'PENDING' AND send_time <= now`.  The SQL only
projects a few columns; the model returns the whole row. -/
def getPendingMessages (db : DB) (now : Nat) : List MsgRow :=
  db.scheduled_messages.filter (fun m => m.status == "PENDING" && m.send_time ≤ now)

/-- AUTOINCREMENT primary key: one more than the largest id in use. -/
def nextId (db : DB) : Nat :=
  (db.scheduled_messages.map (·.id)).foldr max 0 + 1

/-- `add_scheduled_message` (`app.py` 118-125): insert a new row; the
`status` column takes its schema default `'PENDING'`. -/
def addScheduledMessage (db : DB) (text : String) (target : List String)
    (media_url media_type : String) (send_time : Nat) : DB :=
  { db with scheduled_messages :=
      db.scheduled_messages ++ [⟨nextId db, text, target, media_url, media_type, send_time, "PENDING"⟩] }

/-- The dispatch of one scheduled message's recipients
(`send_scheduled_message_async`, `scheduler.py` 22-51). -/
def dispatchFor (bot : BotCall → SendOutcome) (now : Nat) (m : MsgRow) : Nat × List LogEntry :=
  dispatch bot now m.media_url m.media_type m.message_text m.target_ids

/-- The terminal status computed at `scheduler.py` 54-57:
`if sent_count > 0 or len(target_chat_ids) == 0: 'SENT' else 'FAILED'`. -/
def scheduledStatus (bot : BotCall → SendOutcome) (now : Nat) (m : MsgRow) : String :=
  if 0 < (dispatchFor bot now m).1 ∨ m.target_ids.length = 0 then "SENT" else "FAILED"

/-- `send_scheduled_message_async` (`scheduler.py` 19-57): write the
per-recipient log entries, then persist the terminal status. -/
def sendScheduledMessageAsync (bot : BotCall → SendOutcome) (now : Nat)
    (db : DB) (m : MsgRow) : DB :=
  updateMessageStatus
    { db with message_logs := db.message_logs ++ (dispatchFor bot now m).2 }
    m.id (scheduledStatus bot now m)

/-- Processing of one polled message inside the scheduler loop
(`scheduler.py` 76-82).  `sys m = some e` models `asyncio.run` raising an
unexpected (systemic) exception `e` for that message, in which case the
`except` arm forces status `FAILED`; log side effects of a partially
completed dispatch are not modelled in that arm. -/
def processMessage (sys : MsgRow → Option String) (bot : BotCall → SendOutcome)
    (now : Nat) (db : DB) (m : MsgRow) : DB :=
  match sys m with
  | some _ => updateMessageStatus db m.id "FAILED"
  | none => sendScheduledMessageAsync bot now db m

/-- One cycle of `check_schedule_and_send` (`scheduler.py` 69-87): poll once,
then process every polled message in order. -/
def loopCycle (sys : MsgRow → Option String) (bot : BotCall → SendOutcome)
    (now : Nat) (db : DB) : DB :=
  (getPendingMessages db now).foldl (processMessage sys bot now) db

/-- The status a message selected by a cycle ends with: `FAILED` on a
systemic error, otherwise the rule of `scheduler.py` 54-57. -/
def msgOutcome (sys : MsgRow → Option String) (bot : BotCall → SendOutcome)
    (now : Nat) (m : MsgRow) : String :=
  match sys m with
  | some _ => "FAILED"
  | none => scheduledStatus bot now m

/-! Recipient resolution (`app.py` 204-213) and its helpers. -/

/-- Python `str.strip()` whitespace class (ASCII part). -/
def isPySpace (c : Char) : Bool :=
  c == ' ' || c == '\t' || c == '\n' || c == '\r' || c == '\x0b' || c == '\x0c'

/-- Python `str.strip()`: drop whitespace from both ends. -/
def stripChars (s : List Char) : List Char :=
  ((s.dropWhile isPySpace).reverse.dropWhile isPySpace).reverse

def pyStripStr (s : String) : String := ⟨stripChars s.data⟩

/-- Python `s.replace('\r\n', ',')`: left-to-right, non-overlapping. -/
def replaceCRLF : List Char → List Char
  | [] => []
  | [c] => [c]
  | c1 :: c2 :: rest =>
    if c1 = '\r' ∧ c2 = '\n' then ',' :: replaceCRLF rest
    else c1 :: replaceCRLF (c2 :: rest)

/-- Splitting on a separator predicate, returning the first token and the
list of later tokens (`"".split` yields one empty token, i.e. `([], [])`). -/
def splitOnSep (isSep : Char → Bool) : List Char → List Char × List (List Char)
  | [] => ([], [])
  | c :: rest =>
    let r := splitOnSep isSep rest
    if isSep c then ([], r.1 :: r.2) else (c :: r.1, r.2)

def splitTokens (isSep : Char → Bool) (s : List Char) : List (List Char) :=
  (splitOnSep isSep s).1 :: (splitOnSep isSep s).2

/-- `[i.strip() for i in tokens if i.strip()]`. -/
def processTokens (L : List (List Char)) : List (List Char) :=
  (L.map stripChars).filter (fun t => !t.isEmpty)

/-- `app.py` 212: `[i.strip() for i in s.replace('\r\n', ',').split(',') if i.strip()]`. -/
def resolveExplicitChars (s : List Char) : List (List Char) :=
  processTokens (splitTokens (fun c => c == ',') (replaceCRLF s))

def resolveExplicit (s : String) : List String :=
  (resolveExplicitChars s.data).map (fun t => ⟨t⟩)

/-- Claimed behaviour of explicit-id resolution (from the spec's words, for
comparison): split on comma or newline characters, trim each token, drop
empty tokens, no deduplication. -/
def newlineOrComma (c : Char) : Bool := c == ',' || c == '\n' || c == '\r'

def resolveExplicitClaim (s : String) : List String :=
  (processTokens (splitTokens newlineOrComma s.data)).map (fun t => ⟨t⟩)

/-- Inputs in which every newline occurs as part of a CRLF pair: each `'\r'`
is immediately followed by `'\n'` and each `'\n'` is immediately preceded by
`'\r'`. -/
def noLoneNewlines : List Char → Bool
  | [] => true
  | [c] => !(c == '\n') && !(c == '\r')
  | c :: c2 :: rest =>
    if c = '\n' then false
    else if c = '\r' then (c2 == '\n') && noLoneNewlines rest
    else noLoneNewlines (c2 :: rest)

/-! Tag lookup (`app.py` 112-116): `SELECT chat_id FROM telegram_users WHERE
tags LIKE '%"{tag}"%'`, against the JSON serialisation written by
`add_user`. -/

/-- SQLite `LIKE` folds ASCII upper case to lower case. -/
def lcChar (c : Char) : Char :=
  if 'A' ≤ c ∧ c ≤ 'Z' then Char.ofNat (c.toNat + 32) else c

/-- SQLite `LIKE` matching: `'%'` matches any sequence, `'_'` any single
character, other characters match up to ASCII case folding. -/
def likeMatch : List Char → List Char → Bool
  | [], s => s.isEmpty
  | c :: ps, s =>
    if c = '%' then s.tails.any (fun s2 => likeMatch ps s2)
    else
      match s with
      | [] => false
      | d :: s2 =>
        if c = '_' then likeMatch ps s2
        else (lcChar c == lcChar d) && likeMatch ps s2

def hexDigit (n : Nat) : Char :=
  if n < 10 then Char.ofNat (48 + n) else Char.ofNat (87 + n)

def uEscape (n : Nat) : List Char :=
  ['\\', 'u', hexDigit (n / 4096 % 16), hexDigit (n / 256 % 16),
   hexDigit (n / 16 % 16), hexDigit (n % 16)]

/-- `json.dumps` escaping of one character (default `ensure_ascii=True`):
backslash, quote and the short control escapes, printable ASCII verbatim,
everything else as `\uXXXX` (with surrogate pairs beyond the BMP). -/
def escapeChar (c : Char) : List Char :=
  if c = '\\' then ['\\', '\\']
  else if c = '"' then ['\\', '"']
  else if c = '\n' then ['\\', 'n']
  else if c = '\t' then ['\\', 't']
  else if c = '\r' then ['\\', 'r']
  else if c = '\x08' then ['\\', 'b']
  else if c = '\x0c' then ['\\', 'f']
  else if 32 ≤ c.toNat ∧ c.toNat ≤ 126 then [c]
  else if c.toNat < 65536 then uEscape c.toNat
  else uEscape (55296 + (c.toNat - 65536) / 1024) ++ uEscape (56320 + (c.toNat - 65536) % 1024)

def escapeList : List Char → List Char
  | [] => []
  | c :: cs => escapeChar c ++ escapeList cs

/-- A JSON string literal for `s`. -/
def quoteEsc (s : String) : List Char :=
  '"' :: escapeList s.data ++ ['"']

def jsonItems : List String → List Char
  | [] => []
  | [t] => quoteEsc t
  | t :: ts => quoteEsc t ++ ',' :: ' ' :: jsonItems ts

/-- `json.dumps` of a list of strings, as stored in the `tags` column. -/
def jsonDumpsStrings (l : List String) : List Char :=
  '[' :: jsonItems l ++ [']']

/-- The `LIKE` pattern the f-string at `app.py` 115 intends: `%"{tag}"%`. -/
def likePattern (tag : String) : List Char :=
  '%' :: '"' :: (tag.data ++ ['"', '%'])

/-- The single-quote character, SQL's string-literal delimiter. -/
def sq : Char := Char.ofNat 39

/-- SQLite's lexing of a single-quoted string literal, applied to the
characters after the opening quote: a doubled quote de-escapes to one quote,
the next single quote ends the literal.  Returns the literal's content and
the characters remaining after the closing quote, or `none` when the
literal is unterminated (a syntax error). -/
def sqlLexString : List Char → Option (List Char × List Char)
  | [] => none
  | [c] => if c = sq then some ([], []) else none
  | c :: c2 :: rest =>
    if c = sq then
      if c2 = sq then
        match sqlLexString rest with
        | none => none
        | some p => some (sq :: p.1, p.2)
      else some ([], c2 :: rest)
    else
      match sqlLexString (c2 :: rest) with
      | none => none
      | some p => some (c :: p.1, p.2)

/-- `get_users_by_tag` (`app.py` 112-116).  The query is built by an
f-string that splices the raw tag into a single-quoted SQL string literal,
`... LIKE '%"{tag}"%'`, so the pattern actually used is what SQLite's lexer
recovers from `%"{tag}"%'`: a doubled quote inside the tag de-escapes to a
single quote, and a lone quote ends the literal early.  `none` models the
query raising `sqlite3.OperationalError`: the literal is unterminated, or
characters are left over after it.  (Leftover text that happens to parse as
further SQL — an injection — is also modelled as the error case; no theorem
below relies on that branch.) -/
def get_users_by_tag (db : DB) (tag : String) : Option (List String) :=
  match sqlLexString ('%' :: '"' :: (tag.data ++ ['"', '%', sq])) with
  | none => none
  | some (pat, rest) =>
    if rest = [] then
      some ((db.telegram_users.filter
          (fun u => likeMatch pat (jsonDumpsStrings u.tags))).map (·.chat_id))
    else none

/-- Python `str.lower()`, modelled by ASCII case folding (the write path
normalises tags with it at `app.py` 287). -/
def pyLower (s : String) : String := ⟨s.data.map lcChar⟩

/-- Claimed behaviour of tag resolution (from the spec's words, for
comparison): exactly the ids whose stored tag set contains the tag as an
element, case-insensitively (tags being lowercased at write time). -/
def resolveByTagClaim (db : DB) (tag : String) : List String :=
  (db.telegram_users.filter (fun u => u.tags.contains (pyLower tag))).map (·.chat_id)

/-- A character that survives JSON escaping verbatim and is not a `LIKE`
wildcard: printable ASCII other than `%`, `_`, `"` and backslash. -/
def cleanTagChar (c : Char) : Prop :=
  c ≠ '%' ∧ c ≠ '_' ∧ c ≠ '"' ∧ c ≠ '\\' ∧ 32 ≤ c.toNat ∧ c.toNat ≤ 126

instance (c : Char) : Decidable (cleanTagChar c) := by
  unfold cleanTagChar
  infer_instance

/-! The broadcast request handler (`app.py` 183-311, message branch). -/

/-- Code-point comparison standing in for SQLite's byte-wise text order. -/
def listCharLt : List Char → List Char → Bool
  | [], [] => false
  | [], _ :: _ => true
  | _ :: _, [] => false
  | a :: as, b :: bs =>
    if a.toNat < b.toNat then true
    else if b.toNat < a.toNat then false
    else listCharLt as bs

def insertByUsername (u : UserRow) : List UserRow → List UserRow
  | [] => [u]
  | v :: vs =>
    if listCharLt v.username.data u.username.data then v :: insertByUsername u vs
    else u :: v :: vs

/-- `get_all_users` (`app.py` 81-88): all users `ORDER BY username`. -/
def sortByUsername : List UserRow → List UserRow
  | [] => []
  | u :: us => insertByUsername u (sortByUsername us)

def getAllUsers (db : DB) : List UserRow := sortByUsername db.telegram_users

/-- The POST form fields read by the message branch of `broadcast`. -/
structure BroadcastForm where
  message_text : String
  target_type : String
  target_ids : String
  send_type : String
  schedule_time : Option String
  media_url : String
  media_type : String
  selected_tag : String
deriving Repr, DecidableEq

/-- Step 1.1 of `broadcast` (`app.py` 204-213): expand the target spec.
When `get_users_by_tag` raises (`none`), the exception propagates out of the
route in the source and the request aborts with no store change; the route
embedding below stays total by collapsing that case to an empty recipient
list, so it is faithful for every request whose tag query does not raise
(in particular for all inputs the theorems below evaluate). -/
def resolveRecipients (db : DB) (form : BroadcastForm) : List String :=
  if form.target_type = "all" then (getAllUsers db).map (·.chat_id)
  else if form.target_type = "tag" then (get_users_by_tag db form.selected_tag).getD []
  else if form.target_type = "multiple" ∧ pyStripStr form.target_ids ≠ "" then
    resolveExplicit (pyStripStr form.target_ids)
  else []

/-- Truthiness of `request.form.get('schedule_time')`. -/
def scheduleTruthy : Option String → Bool
  | none => false
  | some s => !s.isEmpty

/-- What the route handler returns to the caller: the updated store and the
`message` / `error` strings rendered into the template. -/
structure BroadcastResult where
  db : DB
  message : Option String
  error : Option String
deriving DecidableEq

/-- The message branch of `broadcast` (`app.py` 193-280).  `parseTime`
injects `datetime.strptime` + `.timestamp()`, returning `none` exactly when
`strptime` raises `ValueError`; the human-readable timestamp inside the
success message string is elided. -/
def broadcast (parseTime : String → Option Nat) (bot : BotCall → SendOutcome)
    (now : Nat) (db : DB) (form : BroadcastForm) : BroadcastResult :=
  let recipients := resolveRecipients db form
  if form.send_type = "scheduled" ∧ scheduleTruthy form.schedule_time then
    match parseTime ((form.schedule_time).getD "") with
    | some ts =>
        { db := addScheduledMessage db form.message_text recipients
                  (pyStripStr form.media_url) (pyStripStr form.media_type) ts
          message := some "Message successfully scheduled."
          error := none }
    | none =>
        { db := db, message := none
          error := some "Invalid schedule time format. Please use the YYYY-MM-DD HH:MM format." }
  else
    if recipients ≠ [] then
      let r := dispatch bot now (pyStripStr form.media_url) (pyStripStr form.media_type)
                 form.message_text recipients
      { db := { db with message_logs := db.message_logs ++ r.2 }
        message := some ("Message successfully sent to " ++ toString r.1 ++ " recipient(s).")
        error := none }
    else
      { db := db, message := none, error := some "No recipients specified for broadcasting." }

/-! Program operations on the shared store, for the status-lifecycle claim:
either a UI request (the `broadcast` handler) or one scheduler-loop cycle. -/

inductive ProgramOp where
  | ui (parseTime : String → Option Nat) (bot : BotCall → SendOutcome)
       (now : Nat) (form : BroadcastForm)
  | cycle (sys : MsgRow → Option String) (bot : BotCall → SendOutcome) (now : Nat)

def applyOp (db : DB) : ProgramOp → DB
  | .ui parseTime bot now form => (broadcast parseTime bot now db form).db
  | .cycle sys bot now => loopCycle sys bot now db

def runOps (db : DB) : List ProgramOp → DB
  | [] => db
  | op :: ops => runOps (applyOp db op) ops

/-- The status a row ends a cycle with, as a fold over the polled list. -/
def cycleStatus (sys : MsgRow → Option String) (bot : BotCall → SendOutcome)
    (now : Nat) (msgs : List MsgRow) (r : MsgRow) : String :=
  msgs.foldl (fun st m => if r.id = m.id then msgOutcome sys bot now m else st) r.status

/-- A transport that fails with a generic `TelegramError` for recipient "2"
and succeeds for everyone else. -/
def failsTwo : BotCall → SendOutcome
  | .sendMessage chat _ => if chat = "2" then .telegramError "boom" else .ok
  | _ => .ok

/-! Lemmas about the fan-out dispatch. -/

theorem attemptOne_chat_id (bot : BotCall → SendOutcome) (now : Nat)
    (mu mt text c : String) : (attemptOne bot now mu mt text c).2.chat_id = c := by
  unfold attemptOne
  cases bot (mkBotCall mu mt text c) <;> rfl

theorem dispatchList_map_chat_id (bot : BotCall → SendOutcome) (now : Nat)
    (mu mt text : String) : ∀ L : List String,
    ((dispatchList bot now mu mt text L).2.map (·.chat_id)) = L := by
  intro L
  induction L with
  | nil => rfl
  | cons c cs ih => simp [dispatchList, attemptOne_chat_id, ih]

theorem dispatchList_length (bot : BotCall → SendOutcome) (now : Nat)
    (mu mt text : String) : ∀ L : List String,
    (dispatchList bot now mu mt text L).2.length = L.length := by
  intro L
  induction L with
  | nil => rfl
  | cons c cs ih => simp [dispatchList, ih]

theorem pySetAux_spec : ∀ (l seen : List String),
    (∀ x ∈ pySetAux seen l, x ∉ seen) ∧ (pySetAux seen l).Nodup := by
  intro l
  induction l with
  | nil => intro seen; simp [pySetAux]
  | cons x xs ih =>
    intro seen
    cases hx : seen.contains x with
    | true =>
      have hxm : x ∈ seen := by simpa using hx
      simpa [pySetAux, hxm] using ih seen
    | false =>
      have h2 := ih (x :: seen)
      have hxm : x ∉ seen := by simpa using hx
      constructor
      · intro y hy
        simp only [pySetAux, hx] at hy
        rcases List.mem_cons.mp (by simpa using hy) with rfl | hy2
        · exact hxm
        · have := h2.1 y hy2
          intro hc
          exact this (List.mem_cons_of_mem _ hc)
      · simp only [pySetAux, hx]
        simp only [Bool.false_eq_true, if_false]
        refine List.nodup_cons.mpr ⟨?_, h2.2⟩
        intro hc
        exact (h2.1 x hc) (List.mem_cons_self _ _)

theorem pySetAux_eq_self : ∀ (l seen : List String), l.Nodup →
    (∀ x ∈ l, x ∉ seen) → pySetAux seen l = l := by
  intro l
  induction l with
  | nil => intro seen _ _; rfl
  | cons x xs ih =>
    intro seen hnd hs
    have hx : ¬ seen.contains x := by
      intro hc
      exact hs x (List.mem_cons_self _ _) (by simpa using hc)
    simp only [pySetAux, hx, Bool.false_eq_true, if_false]
    congr 1
    refine ih (x :: seen) (List.nodup_cons.mp hnd).2 ?_
    intro y hy
    simp only [List.mem_cons]
    push_neg
    refine ⟨?_, hs y (List.mem_cons_of_mem _ hy)⟩
    rintro rfl
    exact (List.nodup_cons.mp hnd).1 hy

theorem pySet_nodup (l : List String) : (pySet l).Nodup :=
  (pySetAux_spec l []).2

theorem pySet_idem (l : List String) : pySet (pySet l) = pySet l :=
  pySetAux_eq_self (pySet l) [] (pySet_nodup l) (by simp)

/-! Lemmas about the scheduler loop. -/

theorem msgOutcome_terminal (sys : MsgRow → Option String) (bot : BotCall → SendOutcome)
    (now : Nat) (m : MsgRow) :
    msgOutcome sys bot now m = "SENT" ∨ msgOutcome sys bot now m = "FAILED" := by
  rcases h : sys m with _ | e
  · simp only [msgOutcome, h]
    unfold scheduledStatus
    split
    · exact Or.inl rfl
    · exact Or.inr rfl
  · simp [msgOutcome, h]

theorem processMessage_sched (sys : MsgRow → Option String) (bot : BotCall → SendOutcome)
    (now : Nat) (db : DB) (m : MsgRow) :
    (processMessage sys bot now db m).scheduled_messages
      = db.scheduled_messages.map
          (fun r => if r.id = m.id then { r with status := msgOutcome sys bot now m } else r) := by
  rcases h : sys m with _ | e <;>
    simp [processMessage, msgOutcome, h, sendScheduledMessageAsync, updateMessageStatus]

theorem foldl_processMessage_sched (sys : MsgRow → Option String) (bot : BotCall → SendOutcome)
    (now : Nat) : ∀ (msgs : List MsgRow) (db : DB),
    (msgs.foldl (processMessage sys bot now) db).scheduled_messages
      = db.scheduled_messages.map
          (fun r => { r with status := cycleStatus sys bot now msgs r }) := by
  intro msgs
  induction msgs with
  | nil =>
    intro db
    simp only [List.foldl_nil, cycleStatus, List.foldl_nil]
    exact (List.map_id' db.scheduled_messages).symm
  | cons m ms ih =>
    intro db
    simp only [List.foldl_cons]
    rw [ih, processMessage_sched, List.map_map]
    congr 1
    funext r
    by_cases hid : r.id = m.id <;>
      simp [Function.comp, hid, cycleStatus]

theorem loopCycle_sched (sys : MsgRow → Option String) (bot : BotCall → SendOutcome)
    (now : Nat) (db : DB) :
    (loopCycle sys bot now db).scheduled_messages
      = db.scheduled_messages.map
          (fun r => { r with status := cycleStatus sys bot now (getPendingMessages db now) r }) :=
  foldl_processMessage_sched sys bot now (getPendingMessages db now) db

theorem statusFold_of_not_mem (sys : MsgRow → Option String) (bot : BotCall → SendOutcome)
    (now : Nat) (rid : Nat) : ∀ (msgs : List MsgRow) (st : String),
    rid ∉ msgs.map (·.id) →
    msgs.foldl (fun st2 m2 => if rid = m2.id then msgOutcome sys bot now m2 else st2) st = st := by
  intro msgs
  induction msgs with
  | nil => intro st _; rfl
  | cons m ms ih =>
    intro st hmem
    have h1 : rid ≠ m.id := by
      intro h
      exact hmem (by simp [h])
    have h2 : rid ∉ ms.map (·.id) := by
      intro h
      exact hmem (List.mem_cons_of_mem _ h)
    simp only [List.foldl_cons, if_neg h1]
    exact ih st h2

theorem statusFold_cases (sys : MsgRow → Option String) (bot : BotCall → SendOutcome)
    (now : Nat) (rid : Nat) : ∀ (msgs : List MsgRow) (st : String),
    msgs.foldl (fun st2 m2 => if rid = m2.id then msgOutcome sys bot now m2 else st2) st = st
    ∨ ∃ m ∈ msgs, rid = m.id
        ∧ msgs.foldl (fun st2 m2 => if rid = m2.id then msgOutcome sys bot now m2 else st2) st
            = msgOutcome sys bot now m := by
  intro msgs
  induction msgs with
  | nil => intro st; exact Or.inl rfl
  | cons m ms ih =>
    intro st
    by_cases hid : rid = m.id
    · rcases ih (msgOutcome sys bot now m) with h | ⟨m2, hm2, hid2, h⟩
      · refine Or.inr ⟨m, List.mem_cons_self _ _, hid, ?_⟩
        simpa [List.foldl_cons, if_pos hid] using h
      · refine Or.inr ⟨m2, List.mem_cons_of_mem _ hm2, hid2, ?_⟩
        simpa [List.foldl_cons, if_pos hid] using h
    · rcases ih st with h | ⟨m2, hm2, hid2, h⟩
      · exact Or.inl (by simpa [List.foldl_cons, if_neg hid] using h)
      · refine Or.inr ⟨m2, List.mem_cons_of_mem _ hm2, hid2, ?_⟩
        simpa [List.foldl_cons, if_neg hid] using h

theorem statusFold_of_mem (sys : MsgRow → Option String) (bot : BotCall → SendOutcome)
    (now : Nat) (rid : Nat) : ∀ (msgs : List MsgRow) (m : MsgRow) (st : String),
    (msgs.map (·.id)).Nodup → m ∈ msgs → rid = m.id →
    msgs.foldl (fun st2 m2 => if rid = m2.id then msgOutcome sys bot now m2 else st2) st
      = msgOutcome sys bot now m := by
  intro msgs
  induction msgs with
  | nil => intro m st _ hm; exact absurd hm (List.not_mem_nil m)
  | cons m0 ms ih =>
    intro m st hnd hm hid
    have hnd2 := List.nodup_cons.mp hnd
    rcases List.mem_cons.mp hm with rfl | hm2
    · simp only [List.foldl_cons, if_pos hid]
      refine statusFold_of_not_mem sys bot now rid ms _ ?_
      rw [hid]
      exact hnd2.1
    · have hne : rid ≠ m0.id := by
        intro h
        have : m.id ∈ ms.map (·.id) := List.mem_map_of_mem _ hm2
        rw [hid] at h
        rw [h] at this
        exact hnd2.1 this
      simp only [List.foldl_cons, if_neg hne]
      exact ih m st hnd2.2 hm2 hid

theorem mem_getPendingMessages (db : DB) (now : Nat) (m : MsgRow) :
    m ∈ getPendingMessages db now ↔
      m ∈ db.scheduled_messages ∧ m.status = "PENDING" ∧ m.send_time ≤ now := by
  simp [getPendingMessages, List.mem_filter, and_assoc]

theorem pending_ids_nodup (db : DB) (now : Nat)
    (hnd : (db.scheduled_messages.map (·.id)).Nodup) :
    ((getPendingMessages db now).map (·.id)).Nodup :=
  List.Nodup.sublist (List.Sublist.map _ (List.filter_sublist _)) hnd

theorem row_eq_of_id_eq : ∀ (l : List MsgRow), (l.map (·.id)).Nodup →
    ∀ {m r : MsgRow}, m ∈ l → r ∈ l → m.id = r.id → m = r := by
  intro l
  induction l with
  | nil =>
    intro _ m r hm
    exact absurd hm (List.not_mem_nil m)
  | cons x xs ih =>
    intro hnd m r hm hr hid
    simp only [List.map_cons] at hnd
    have hnd2 := List.nodup_cons.mp hnd
    rcases List.mem_cons.mp hm with rfl | hm2 <;> rcases List.mem_cons.mp hr with rfl | hr2
    · rfl
    · exfalso
      apply hnd2.1
      rw [hid]
      exact List.mem_map_of_mem _ hr2
    · exfalso
      apply hnd2.1
      rw [← hid]
      exact List.mem_map_of_mem _ hm2
    · exact ih hnd2.2 hm2 hr2 hid

theorem broadcast_sched (parseTime : String → Option Nat) (bot : BotCall → SendOutcome)
    (now : Nat) (db : DB) (form : BroadcastForm) :
    (broadcast parseTime bot now db form).db.scheduled_messages = db.scheduled_messages
  ∨ ∃ row : MsgRow, row.id = nextId db ∧ row.status = "PENDING"
      ∧ (broadcast parseTime bot now db form).db.scheduled_messages
          = db.scheduled_messages ++ [row] := by
  by_cases h1 : form.send_type = "scheduled" ∧ scheduleTruthy form.schedule_time
  · rcases hp : parseTime ((form.schedule_time).getD "") with _ | ts
    · left
      simp [broadcast, h1, hp]
    · right
      exact ⟨⟨nextId db, form.message_text, resolveRecipients db form,
              pyStripStr form.media_url, pyStripStr form.media_type, ts, "PENDING"⟩,
             rfl, rfl, by simp [broadcast, h1, hp, addScheduledMessage]⟩
  · by_cases h2 : resolveRecipients db form = []
    · left
      simp [broadcast, h1, h2]
    · left
      simp [broadcast, h1, h2]

theorem le_foldr_max : ∀ (l : List Nat) (x : Nat), x ∈ l → x ≤ l.foldr max 0 := by
  intro l
  induction l with
  | nil => intro x hx; exact absurd hx (List.not_mem_nil x)
  | cons a l ih =>
    intro x hx
    simp only [List.foldr_cons]
    rcases List.mem_cons.mp hx with rfl | hx2
    · exact Nat.le_max_left _ _
    · exact le_trans (ih x hx2) (Nat.le_max_right _ _)

theorem nextId_not_mem (db : DB) : nextId db ∉ db.scheduled_messages.map (·.id) := by
  intro hmem
  have h1 := le_foldr_max (db.scheduled_messages.map (·.id)) (nextId db) hmem
  have h2 : nextId db = (db.scheduled_messages.map (·.id)).foldr max 0 + 1 := rfl
  omega

theorem applyOp_nodup (db : DB) (op : ProgramOp)
    (hnd : (db.scheduled_messages.map (·.id)).Nodup) :
    ((applyOp db op).scheduled_messages.map (·.id)).Nodup := by
  cases op with
  | ui parseTime bot now form =>
    rcases broadcast_sched parseTime bot now db form with heq | ⟨row, hid, hst, heq⟩
    · simp only [applyOp]
      rw [heq]
      exact hnd
    · simp only [applyOp]
      rw [heq, List.map_append]
      refine List.Nodup.append hnd (List.nodup_singleton _) ?_
      intro a ha hb
      have : a = row.id := by simpa using hb
      rw [this, hid] at ha
      exact nextId_not_mem db ha
  | cycle sys bot now =>
    simp only [applyOp]
    rw [loopCycle_sched, List.map_map]
    have heta : ((·.id) ∘ fun r : MsgRow =>
        { r with status := cycleStatus sys bot now (getPendingMessages db now) r })
        = (fun r : MsgRow => r.id) := rfl
    rw [heta]
    exact hnd

theorem applyOp_length_le (db : DB) (op : ProgramOp) :
    db.scheduled_messages.length ≤ (applyOp db op).scheduled_messages.length := by
  cases op with
  | ui parseTime bot now form =>
    rcases broadcast_sched parseTime bot now db form with heq | ⟨row, _, _, heq⟩ <;>
      simp [applyOp, heq]
  | cycle sys bot now =>
    simp [applyOp, loopCycle_sched]

theorem applyOp_row_transition (db : DB) (op : ProgramOp)
    (hnd : (db.scheduled_messages.map (·.id)).Nodup)
    (i : Nat) (h : i < db.scheduled_messages.length)
    (h2 : i < (applyOp db op).scheduled_messages.length) :
    ((applyOp db op).scheduled_messages[i].status = db.scheduled_messages[i].status
       ∨ (db.scheduled_messages[i].status = "PENDING"
           ∧ ((applyOp db op).scheduled_messages[i].status = "SENT"
              ∨ (applyOp db op).scheduled_messages[i].status = "FAILED")))
  ∧ ((db.scheduled_messages[i].status = "SENT" ∨ db.scheduled_messages[i].status = "FAILED")
       → (applyOp db op).scheduled_messages[i] = db.scheduled_messages[i]) := by
  cases op with
  | ui parseTime bot now form =>
    have hrow : (applyOp db (.ui parseTime bot now form)).scheduled_messages[i]
        = db.scheduled_messages[i] := by
      rcases broadcast_sched parseTime bot now db form with heq | ⟨row, _, _, heq⟩
      · simp only [applyOp]
        simp [heq]
      · simp only [applyOp]
        simp [heq, List.getElem_append_left, h]
    exact ⟨Or.inl (by rw [hrow]), fun _ => hrow⟩
  | cycle sys bot now =>
    have hgi : (applyOp db (.cycle sys bot now)).scheduled_messages[i]
        = { db.scheduled_messages[i] with
            status := cycleStatus sys bot now (getPendingMessages db now)
                        db.scheduled_messages[i] } := by
      simp only [applyOp]
      simp [loopCycle_sched]
    have hr : db.scheduled_messages[i] ∈ db.scheduled_messages := List.getElem_mem h
    constructor
    · rcases statusFold_cases sys bot now db.scheduled_messages[i].id
          (getPendingMessages db now) db.scheduled_messages[i].status with hc | ⟨m, hm, hid, hc⟩
      · left
        rw [hgi]
        exact hc
      · right
        have hm2 := (mem_getPendingMessages db now m).mp hm
        have hmr : m = db.scheduled_messages[i] :=
          row_eq_of_id_eq _ hnd hm2.1 hr (by rw [← hid])
        refine ⟨by rw [← hmr]; exact hm2.2.1, ?_⟩
        rw [hgi]
        rcases msgOutcome_terminal sys bot now m with h3 | h3
        · exact Or.inl (hc.trans h3)
        · exact Or.inr (hc.trans h3)
    · intro hterm
      have hnotin : db.scheduled_messages[i].id ∉ (getPendingMessages db now).map (·.id) := by
        intro hin
        obtain ⟨m, hm, hmid⟩ := List.mem_map.mp hin
        have hm2 := (mem_getPendingMessages db now m).mp hm
        have hmr : m = db.scheduled_messages[i] := row_eq_of_id_eq _ hnd hm2.1 hr hmid
        rw [hmr] at hm2
        rcases hterm with h4 | h4 <;> exact absurd (h4.symm.trans hm2.2.1) (by decide)
      have hcst : cycleStatus sys bot now (getPendingMessages db now) db.scheduled_messages[i]
          = db.scheduled_messages[i].status :=
        statusFold_of_not_mem sys bot now db.scheduled_messages[i].id
          (getPendingMessages db now) db.scheduled_messages[i].status hnotin
      rw [hgi, hcst]

theorem runOps_cons (db : DB) (op : ProgramOp) (ops : List ProgramOp) :
    runOps db (op :: ops) = runOps (applyOp db op) ops := rfl

theorem runOps_length_le : ∀ (ops : List ProgramOp) (db : DB),
    db.scheduled_messages.length ≤ (runOps db ops).scheduled_messages.length := by
  intro ops
  induction ops with
  | nil => intro db; exact le_refl _
  | cons op ops ih =>
    intro db
    exact le_trans (applyOp_length_le db op) (ih (applyOp db op))

/-- C2: across any sequence of program operations (UI requests and scheduler
cycles), a message's status either stays unchanged or moves PENDING to SENT
or PENDING to FAILED; a row already in a terminal state is never modified
again (so each message reaches a terminal state at most once).  Row ids are
assumed distinct, as guaranteed by the PRIMARY KEY. -/
theorem status_transitions_monotonic : ∀ (ops : List ProgramOp) (db : DB),
    (db.scheduled_messages.map (·.id)).Nodup →
    ∀ (i : Nat) (h : i < db.scheduled_messages.length)
      (h2 : i < (runOps db ops).scheduled_messages.length),
    ((runOps db ops).scheduled_messages[i].status = db.scheduled_messages[i].status
       ∨ (db.scheduled_messages[i].status = "PENDING"
           ∧ ((runOps db ops).scheduled_messages[i].status = "SENT"
              ∨ (runOps db ops).scheduled_messages[i].status = "FAILED")))
  ∧ ((db.scheduled_messages[i].status = "SENT" ∨ db.scheduled_messages[i].status = "FAILED")
       → (runOps db ops).scheduled_messages[i] = db.scheduled_messages[i]) := by
  intro ops
  induction ops with
  | nil =>
    intro db hnd i h h2
    exact ⟨Or.inl rfl, fun _ => rfl⟩
  | cons op ops ih =>
    intro db hnd i h h2
    have h1 : i < (applyOp db op).scheduled_messages.length :=
      lt_of_lt_of_le h (applyOp_length_le db op)
    have hstep := applyOp_row_transition db op hnd i h h1
    have hnd1 := applyOp_nodup db op hnd
    have h2b : i < (runOps (applyOp db op) ops).scheduled_messages.length := h2
    have hrest := ih (applyOp db op) hnd1 i h1 h2b
    constructor
    · rcases hrest.1 with hA | ⟨hApend, hAterm⟩
      · rcases hstep.1 with hB | ⟨hBpend, hBterm⟩
        · exact Or.inl (hA.trans hB)
        · refine Or.inr ⟨hBpend, ?_⟩
          rcases hBterm with h3 | h3
          · exact Or.inl (hA.trans h3)
          · exact Or.inr (hA.trans h3)
      · rcases hstep.1 with hB | ⟨hBpend, hBterm⟩
        · exact Or.inr ⟨hB.symm.trans hApend, hAterm⟩
        · exfalso
          rcases hBterm with h3 | h3 <;>
            (rw [hApend] at h3; exact absurd h3 (by decide))
    · intro hterm
      have hmid := hstep.2 hterm
      have hfin : (runOps (applyOp db op) ops).scheduled_messages[i]
          = (applyOp db op).scheduled_messages[i] := by
        apply hrest.2
        rw [hmid]
        exact hterm
      exact hfin.trans hmid

theorem status_transitions_monotonic_witness :
    (runOps ⟨[], [⟨1, "hi", ["1"], "", "", 0, "SENT"⟩], []⟩
        [ProgramOp.cycle (fun _ => none) (fun _ => SendOutcome.ok) 5]).scheduled_messages.get
      ⟨0, by decide⟩
      = ⟨1, "hi", ["1"], "", "", 0, "SENT"⟩ := by
  have h := status_transitions_monotonic
      [ProgramOp.cycle (fun _ => none) (fun _ => SendOutcome.ok) 5]
      ⟨[], [⟨1, "hi", ["1"], "", "", 0, "SENT"⟩], []⟩ (by decide) 0 (by decide) (by decide)
  exact h.2 (Or.inl rfl)

/-- C5: a poll selects exactly the rows with status PENDING and
`send_time ≤ now`; a future message is never selected before its send time;
and once a cycle has driven a selected message to its terminal status, a
later poll never selects that row again. -/
theorem poll_selects_due_pending (db : DB) (now : Nat) :
    (∀ m : MsgRow, m ∈ getPendingMessages db now ↔
        m ∈ db.scheduled_messages ∧ m.status = "PENDING" ∧ m.send_time ≤ now)
  ∧ (∀ m : MsgRow, m ∈ db.scheduled_messages → now < m.send_time →
        m ∉ getPendingMessages db now)
  ∧ (∀ (sys : MsgRow → Option String) (bot : BotCall → SendOutcome),
        (db.scheduled_messages.map (·.id)).Nodup →
        ∀ (i : Nat) (h : i < db.scheduled_messages.length)
          (h2 : i < (loopCycle sys bot now db).scheduled_messages.length),
          db.scheduled_messages[i] ∈ getPendingMessages db now →
          ∀ now2 : Nat,
            (loopCycle sys bot now db).scheduled_messages[i]
              ∉ getPendingMessages (loopCycle sys bot now db) now2) := by
  refine ⟨fun m => mem_getPendingMessages db now m, ?_, ?_⟩
  · intro m hm hfut hin
    have := ((mem_getPendingMessages db now m).mp hin).2.2
    omega
  · intro sys bot hnd i h h2 hsel now2 hin
    have hgi : (loopCycle sys bot now db).scheduled_messages[i]
        = { db.scheduled_messages[i] with
            status := cycleStatus sys bot now (getPendingMessages db now)
                        db.scheduled_messages[i] } := by
      simp [loopCycle_sched]
    have hcst : cycleStatus sys bot now (getPendingMessages db now) db.scheduled_messages[i]
        = msgOutcome sys bot now db.scheduled_messages[i] :=
      statusFold_of_mem sys bot now db.scheduled_messages[i].id (getPendingMessages db now)
        db.scheduled_messages[i] db.scheduled_messages[i].status
        (pending_ids_nodup db now hnd) hsel rfl
    have hpend := ((mem_getPendingMessages _ now2 _).mp hin).2.1
    rw [hgi] at hpend
    have hpend2 : cycleStatus sys bot now (getPendingMessages db now)
        db.scheduled_messages[i] = "PENDING" := hpend
    rw [hcst] at hpend2
    rcases msgOutcome_terminal sys bot now db.scheduled_messages[i] with h3 | h3 <;>
      exact absurd (h3.symm.trans hpend2) (by decide)

theorem poll_selects_due_pending_witness :
    (⟨1, "hi", ["1"], "", "", 7, "PENDING"⟩ : MsgRow)
      ∈ getPendingMessages ⟨[], [⟨1, "hi", ["1"], "", "", 7, "PENDING"⟩], []⟩ 10
  ∧ (⟨2, "yo", [], "", "", 99, "PENDING"⟩ : MsgRow)
      ∉ getPendingMessages ⟨[], [⟨2, "yo", [], "", "", 99, "PENDING"⟩], []⟩ 10 := by
  constructor
  · exact ((poll_selects_due_pending ⟨[], [⟨1, "hi", ["1"], "", "", 7, "PENDING"⟩], []⟩ 10).1
      ⟨1, "hi", ["1"], "", "", 7, "PENDING"⟩).mpr ⟨by decide, rfl, by decide⟩
  · exact (poll_selects_due_pending ⟨[], [⟨2, "yo", [], "", "", 99, "PENDING"⟩], []⟩ 10).2.1
      ⟨2, "yo", [], "", "", 99, "PENDING"⟩ (by decide) (by decide)

/-- C6: when the dispatch step raises a systemic error for a polled message
(`sys m = some e`), the cycle still persists status FAILED for that row
(it is never left PENDING), and every other polled row of the same cycle is
still processed to its own terminal status. -/
theorem cycle_marks_systemic_failures (sys : MsgRow → Option String)
    (bot : BotCall → SendOutcome) (now : Nat) (db : DB)
    (hnd : (db.scheduled_messages.map (·.id)).Nodup)
    (i : Nat) (h : i < db.scheduled_messages.length)
    (h2 : i < (loopCycle sys bot now db).scheduled_messages.length)
    (hsel : db.scheduled_messages[i] ∈ getPendingMessages db now) :
    (loopCycle sys bot now db).scheduled_messages[i]
      = { db.scheduled_messages[i] with
          status := msgOutcome sys bot now db.scheduled_messages[i] }
  ∧ (∀ e : String, sys db.scheduled_messages[i] = some e →
      msgOutcome sys bot now db.scheduled_messages[i] = "FAILED")
  ∧ (msgOutcome sys bot now db.scheduled_messages[i] = "SENT"
     ∨ msgOutcome sys bot now db.scheduled_messages[i] = "FAILED") := by
  have hgi : (loopCycle sys bot now db).scheduled_messages[i]
      = { db.scheduled_messages[i] with
          status := cycleStatus sys bot now (getPendingMessages db now)
                      db.scheduled_messages[i] } := by
    simp [loopCycle_sched]
  have hcst : cycleStatus sys bot now (getPendingMessages db now) db.scheduled_messages[i]
      = msgOutcome sys bot now db.scheduled_messages[i] :=
    statusFold_of_mem sys bot now db.scheduled_messages[i].id (getPendingMessages db now)
      db.scheduled_messages[i] db.scheduled_messages[i].status
      (pending_ids_nodup db now hnd) hsel rfl
  refine ⟨by rw [hgi, hcst], ?_, msgOutcome_terminal sys bot now db.scheduled_messages[i]⟩
  intro e he
  simp [msgOutcome, he]

theorem cycle_marks_systemic_failures_witness :
    (loopCycle (fun m => if m.id = 1 then some "db gone" else none) (fun _ => SendOutcome.ok) 10
        ⟨[], [⟨1, "hi", ["1"], "", "", 0, "PENDING"⟩, ⟨2, "yo", ["1"], "", "", 0, "PENDING"⟩],
         []⟩).scheduled_messages.get ⟨0, by decide⟩
      = ⟨1, "hi", ["1"], "", "", 0, "FAILED"⟩ := by
  have h := cycle_marks_systemic_failures
      (fun m => if m.id = 1 then some "db gone" else none) (fun _ => SendOutcome.ok) 10
      ⟨[], [⟨1, "hi", ["1"], "", "", 0, "PENDING"⟩, ⟨2, "yo", ["1"], "", "", 0, "PENDING"⟩], []⟩
      (by decide) 0 (by decide) (by decide) (by decide)
  exact h.1.trans (by decide)

/-- C10: `update_message_status` changes only the `status` column of the
rows whose id matches; all other columns of every scheduled row, every
non-matching row, and the other two tables are left unchanged. -/
theorem update_status_frame (db : DB) (msg_id : Nat) (st : String) :
    (updateMessageStatus db msg_id st).telegram_users = db.telegram_users
  ∧ (updateMessageStatus db msg_id st).message_logs = db.message_logs
  ∧ (updateMessageStatus db msg_id st).scheduled_messages.length
      = db.scheduled_messages.length
  ∧ ∀ (i : Nat) (h : i < db.scheduled_messages.length)
      (h2 : i < (updateMessageStatus db msg_id st).scheduled_messages.length),
      ((updateMessageStatus db msg_id st).scheduled_messages[i].id
          = db.scheduled_messages[i].id
       ∧ (updateMessageStatus db msg_id st).scheduled_messages[i].message_text
          = db.scheduled_messages[i].message_text
       ∧ (updateMessageStatus db msg_id st).scheduled_messages[i].target_ids
          = db.scheduled_messages[i].target_ids
       ∧ (updateMessageStatus db msg_id st).scheduled_messages[i].media_url
          = db.scheduled_messages[i].media_url
       ∧ (updateMessageStatus db msg_id st).scheduled_messages[i].media_type
          = db.scheduled_messages[i].media_type
       ∧ (updateMessageStatus db msg_id st).scheduled_messages[i].send_time
          = db.scheduled_messages[i].send_time)
      ∧ (db.scheduled_messages[i].id ≠ msg_id →
          (updateMessageStatus db msg_id st).scheduled_messages[i]
            = db.scheduled_messages[i])
      ∧ (db.scheduled_messages[i].id = msg_id →
          (updateMessageStatus db msg_id st).scheduled_messages[i].status = st) := by
  refine ⟨rfl, rfl, by simp [updateMessageStatus], ?_⟩
  intro i h h2
  have hgi : (updateMessageStatus db msg_id st).scheduled_messages[i]
      = if db.scheduled_messages[i].id = msg_id
          then { db.scheduled_messages[i] with status := st }
          else db.scheduled_messages[i] := by
    simp [updateMessageStatus]
  by_cases hid : db.scheduled_messages[i].id = msg_id
  · rw [hgi, if_pos hid]
    exact ⟨⟨rfl, rfl, rfl, rfl, rfl, rfl⟩, fun hne => absurd hid hne, fun _ => rfl⟩
  · rw [hgi, if_neg hid]
    exact ⟨⟨rfl, rfl, rfl, rfl, rfl, rfl⟩, fun _ => rfl, fun heq => absurd heq hid⟩

theorem update_status_frame_witness :
    ((updateMessageStatus ⟨[], [⟨1, "hi", ["1"], "u", "photo", 3, "PENDING"⟩], []⟩ 1
        "SENT").scheduled_messages.get ⟨0, by decide⟩).message_text = "hi" := by
  have h := (update_status_frame ⟨[], [⟨1, "hi", ["1"], "u", "photo", 3, "PENDING"⟩], []⟩ 1
      "SENT").2.2.2 0 (by decide) (by decide)
  exact h.1.2.1

/-- C7 counterexample: a broadcast request with send type `scheduled`, a
valid schedule time and an empty resolved recipient set is NOT rejected:
no error is reported and a scheduled message with an empty target snapshot
is persisted, contradicting the claim that an empty recipient set is always
reported as an input error with state unchanged. -/
theorem scheduled_empty_recipients_persisted :
    resolveRecipients ⟨[], [], []⟩
        ⟨"hi", "multiple", "", "scheduled", some "2025-01-01T00:00", "", "", ""⟩ = []
  ∧ (broadcast (fun _ => some 100) (fun _ => SendOutcome.ok) 0 ⟨[], [], []⟩
        ⟨"hi", "multiple", "", "scheduled", some "2025-01-01T00:00", "", "", ""⟩).error = none
  ∧ (broadcast (fun _ => some 100) (fun _ => SendOutcome.ok) 0 ⟨[], [], []⟩
        ⟨"hi", "multiple", "", "scheduled", some "2025-01-01T00:00", "", "", ""⟩).db.scheduled_messages
      = [⟨1, "hi", [], "", "", 100, "PENDING"⟩] := by
  refine ⟨by decide, by decide, by decide⟩

/-- C7 (amended): a malformed schedule time on the scheduled path, and an
empty resolved recipient set on the immediate-send path, are each reported
synchronously as an error string with the store left unchanged (no log
entry, no scheduled message, no retry); the empty-set check does not apply
to the scheduled path. -/
theorem broadcast_input_error_handling (parseTime : String → Option Nat)
    (bot : BotCall → SendOutcome) (now : Nat) (db : DB) (form : BroadcastForm) :
    ((form.send_type = "scheduled" ∧ scheduleTruthy form.schedule_time) →
      parseTime ((form.schedule_time).getD "") = none →
      (broadcast parseTime bot now db form).error
          = some "Invalid schedule time format. Please use the YYYY-MM-DD HH:MM format."
        ∧ (broadcast parseTime bot now db form).db = db)
  ∧ (¬ (form.send_type = "scheduled" ∧ scheduleTruthy form.schedule_time) →
      resolveRecipients db form = [] →
      (broadcast parseTime bot now db form).error
          = some "No recipients specified for broadcasting."
        ∧ (broadcast parseTime bot now db form).db = db) := by
  constructor
  · intro h1 hp
    simp [broadcast, h1, hp]
  · intro h1 h2
    simp [broadcast, h1, h2]

theorem broadcast_input_error_handling_witness :
    ((broadcast (fun _ => none) (fun _ => SendOutcome.ok) 0 ⟨[], [], []⟩
        ⟨"hi", "multiple", "", "scheduled", some "bad", "", "", ""⟩).error
        = some "Invalid schedule time format. Please use the YYYY-MM-DD HH:MM format."
      ∧ (broadcast (fun _ => none) (fun _ => SendOutcome.ok) 0 ⟨[], [], []⟩
          ⟨"hi", "multiple", "", "scheduled", some "bad", "", "", ""⟩).db = ⟨[], [], []⟩)
  ∧ ((broadcast (fun _ => some 5) (fun _ => SendOutcome.ok) 0 ⟨[], [], []⟩
        ⟨"hi", "multiple", "", "now", none, "", "", ""⟩).error
        = some "No recipients specified for broadcasting."
      ∧ (broadcast (fun _ => some 5) (fun _ => SendOutcome.ok) 0 ⟨[], [], []⟩
          ⟨"hi", "multiple", "", "now", none, "", "", ""⟩).db = ⟨[], [], []⟩) :=
  ⟨(broadcast_input_error_handling (fun _ => none) (fun _ => SendOutcome.ok) 0 ⟨[], [], []⟩
      ⟨"hi", "multiple", "", "scheduled", some "bad", "", "", ""⟩).1 ⟨rfl, rfl⟩ rfl,
   (broadcast_input_error_handling (fun _ => some 5) (fun _ => SendOutcome.ok) 0 ⟨[], [], []⟩
      ⟨"hi", "multiple", "", "now", none, "", "", ""⟩).2 (by decide) rfl⟩

/-! Lemmas about JSON serialisation and `LIKE` matching, for the tag claim. -/

theorem escapeChar_clean (c : Char) (hc : cleanTagChar c) : escapeChar c = [c] := by
  obtain ⟨h1, h2, h3, h4, h5, h6⟩ := hc
  have hn : c ≠ '\n' := by rintro rfl; exact absurd h5 (by decide)
  have ht : c ≠ '\t' := by rintro rfl; exact absurd h5 (by decide)
  have hr : c ≠ '\r' := by rintro rfl; exact absurd h5 (by decide)
  have hb : c ≠ '\x08' := by rintro rfl; exact absurd h5 (by decide)
  have hf : c ≠ '\x0c' := by rintro rfl; exact absurd h5 (by decide)
  unfold escapeChar
  rw [if_neg h4, if_neg h3, if_neg hn, if_neg ht, if_neg hr, if_neg hb, if_neg hf,
     if_pos ⟨h5, h6⟩]

theorem escapeList_clean : ∀ s : List Char, (∀ c ∈ s, cleanTagChar c) → escapeList s = s := by
  intro s
  induction s with
  | nil => intro _; rfl
  | cons c cs ih =>
    intro hs
    simp only [escapeList]
    rw [escapeChar_clean c (hs c (List.mem_cons_self _ _)),
        ih (fun d hd => hs d (List.mem_cons_of_mem _ hd))]
    rfl

theorem quoteEsc_clean (t : String) (ht : ∀ c ∈ t.data, cleanTagChar c) :
    quoteEsc t = '"' :: t.data ++ ['"'] := by
  unfold quoteEsc
  rw [escapeList_clean t.data ht]

theorem jsonItems_infix : ∀ (l : List String) (t : String), t ∈ l →
    ∃ a b, jsonItems l = a ++ quoteEsc t ++ b := by
  intro l
  induction l with
  | nil => intro t ht; exact absurd ht (List.not_mem_nil t)
  | cons x xs ih =>
    intro t ht
    rcases List.mem_cons.mp ht with rfl | ht2
    · cases xs with
      | nil => exact ⟨[], [], by simp [jsonItems]⟩
      | cons y ys => exact ⟨[], ',' :: ' ' :: jsonItems (y :: ys), by simp [jsonItems]⟩
    · have hxs : xs ≠ [] := by
        rintro rfl
        exact List.not_mem_nil t ht2
      obtain ⟨a, b, hab⟩ := ih t ht2
      refine ⟨quoteEsc x ++ ',' :: ' ' :: a, b, ?_⟩
      cases xs with
      | nil => exact absurd rfl hxs
      | cons y ys => simp [jsonItems, hab]

theorem jsonDumps_infix (l : List String) (t : String) (ht : t ∈ l) :
    ∃ a b, jsonDumpsStrings l = a ++ quoteEsc t ++ b := by
  obtain ⟨a, b, hab⟩ := jsonItems_infix l t ht
  exact ⟨'[' :: a, b ++ [']'], by simp [jsonDumpsStrings, hab]⟩

theorem likeMatch_percent_nil : ∀ s : List Char, likeMatch ['%'] s = true := by
  intro s
  simp only [likeMatch, if_true]
  rw [List.any_eq_true]
  refine ⟨[], ?_, rfl⟩
  rw [List.mem_tails]
  exact List.nil_suffix

theorem likeMatch_plain_append : ∀ (p m b : List Char),
    (∀ c ∈ p, c ≠ '%' ∧ c ≠ '_') → p.map lcChar = m.map lcChar →
    likeMatch (p ++ ['%']) (m ++ b) = true := by
  intro p
  induction p with
  | nil =>
    intro m b _ hci
    have hm : m = [] := by
      cases m with
      | nil => rfl
      | cons d m2 => simp at hci
    rw [hm]
    exact likeMatch_percent_nil b
  | cons c p2 ih =>
    intro m b hp hci
    cases m with
    | nil => simp at hci
    | cons d m2 =>
      simp only [List.map_cons, List.cons.injEq] at hci
      have hc := hp c (List.mem_cons_self _ _)
      simp only [List.cons_append, likeMatch]
      rw [if_neg hc.1, if_neg hc.2]
      simp only [Bool.and_eq_true, beq_iff_eq]
      exact ⟨hci.1, ih m2 b (fun e he => hp e (List.mem_cons_of_mem _ he)) hci.2⟩

theorem likeMatch_infix (mid a m b : List Char)
    (hplain : ∀ c ∈ mid, c ≠ '%' ∧ c ≠ '_')
    (hci : mid.map lcChar = m.map lcChar) :
    likeMatch ('%' :: (mid ++ ['%'])) (a ++ m ++ b) = true := by
  simp only [likeMatch, if_true]
  rw [List.any_eq_true]
  refine ⟨m ++ b, ?_, likeMatch_plain_append mid m b hplain hci⟩
  rw [List.mem_tails]
  exact ⟨a, by simp⟩

theorem sqlLexString_clean : ∀ (content : List Char), (∀ c ∈ content, c ≠ sq) →
    sqlLexString (content ++ [sq]) = some (content, []) := by
  intro content
  induction content with
  | nil =>
    intro _
    simp [sqlLexString]
  | cons c cs ih =>
    intro hcl
    have hc : c ≠ sq := hcl c (List.mem_cons_self _ _)
    have hcs : ∀ d ∈ cs, d ≠ sq := fun d hd => hcl d (List.mem_cons_of_mem _ hd)
    cases cs with
    | nil => simp [sqlLexString, hc]
    | cons d ds =>
      have ihr := ih hcs
      simp only [List.cons_append] at ihr ⊢
      simp only [sqlLexString]
      rw [if_neg hc, ihr]

/-- C8 counterexample: `get_users_by_tag` is a `LIKE '%"tag"%'` substring
query with the tag spliced raw into the SQL string literal.  For the tag
`"v_p"` (underscore is a single-character wildcard) it returns the recipient
whose tag set is `{"vip"}` even though that tag set does not contain
`"v_p"`, while the claimed exact-match resolver returns nobody; for a tag
containing one single quote the query is a SQL syntax error rather than a
result; and for a tag with a doubled single quote the de-escaped pattern no
longer finds the recipient stored with exactly that tag. -/
theorem by_tag_like_false_positive :
    get_users_by_tag ⟨[⟨"u1", "User", ["vip"]⟩], [], []⟩ "v_p" = some ["u1"]
  ∧ resolveByTagClaim ⟨[⟨"u1", "User", ["vip"]⟩], [], []⟩ "v_p" = []
  ∧ pyLower "v_p" ∉ (["vip"] : List String)
  ∧ get_users_by_tag
      ⟨[⟨"u1", "User", [⟨['o', sq, 'b', 'r', 'i', 'e', 'n']⟩]⟩], [], []⟩
      ⟨['o', sq, 'b', 'r', 'i', 'e', 'n']⟩ = none
  ∧ get_users_by_tag
      ⟨[⟨"u1", "User", [⟨['a', sq, sq, 'b']⟩]⟩], [], []⟩
      ⟨['a', sq, sq, 'b']⟩ = some [] := by
  refine ⟨by decide, by decide, by decide, by decide, by decide⟩

/-- C8 (amended): tag resolution splices the raw tag into a single-quoted
SQL `LIKE '%"tag"%'` containment query on the serialised tag list, so it is
only well behaved for tags without single quotes (a lone quote makes the
query a SQL syntax error, a doubled quote de-escapes into a different
pattern).  For such tags it is complete: the query succeeds and returns
every recipient whose stored tag set contains the tag up to ASCII case,
provided the tag also has no `LIKE` wildcard characters and the matched
stored tag is clean printable ASCII; but it is not exact — recipients whose
serialised tag list merely matches the pattern may also be returned. -/
theorem by_tag_contains_complete (db : DB) (tag : String) (u : UserRow) (t2 : String)
    (hu : u ∈ db.telegram_users) (ht : t2 ∈ u.tags)
    (hci : t2.data.map lcChar = tag.data.map lcChar)
    (hcleanTag : ∀ c ∈ tag.data, c ≠ '%' ∧ c ≠ '_' ∧ c ≠ sq)
    (hclean : ∀ c ∈ t2.data, cleanTagChar c) :
    ∃ res, get_users_by_tag db tag = some res ∧ u.chat_id ∈ res := by
  obtain ⟨a, b, hab⟩ := jsonDumps_infix u.tags t2 ht
  rw [quoteEsc_clean t2 hclean] at hab
  have hnq : ∀ c ∈ '%' :: '"' :: (tag.data ++ ['"', '%']), c ≠ sq := by
    intro c hc
    rcases List.mem_cons.mp hc with rfl | hc2
    · decide
    rcases List.mem_cons.mp hc2 with rfl | hc3
    · decide
    rcases List.mem_append.mp hc3 with hc4 | hc4
    · exact (hcleanTag c hc4).2.2
    · have hcq : c = '"' ∨ c = '%' := by simpa using hc4
      rcases hcq with rfl | rfl <;> decide
  have hlex : sqlLexString ('%' :: '"' :: (tag.data ++ ['"', '%', sq]))
      = some ('%' :: '"' :: (tag.data ++ ['"', '%']), []) := by
    have h0 := sqlLexString_clean ('%' :: '"' :: (tag.data ++ ['"', '%'])) hnq
    have hsh : ('%' :: '"' :: (tag.data ++ ['"', '%'])) ++ [sq]
        = '%' :: '"' :: (tag.data ++ ['"', '%', sq]) := by
      simp
    rw [hsh] at h0
    exact h0
  have hpat : ('%' :: '"' :: (tag.data ++ ['"', '%']) : List Char)
      = '%' :: (('"' :: tag.data ++ ['"']) ++ ['%']) := by
    simp
  have hmid : ('"' :: tag.data ++ ['"']).map lcChar
      = ('"' :: t2.data ++ ['"']).map lcChar := by
    simp [hci]
  have hplain : ∀ c ∈ '"' :: tag.data ++ ['"'], c ≠ '%' ∧ c ≠ '_' := by
    intro c hc
    rcases List.mem_cons.mp hc with rfl | hc2
    · exact ⟨by decide, by decide⟩
    · rcases List.mem_append.mp hc2 with hc3 | hc3
      · exact ⟨(hcleanTag c hc3).1, (hcleanTag c hc3).2.1⟩
      · have : c = '"' := by simpa using hc3
        rw [this]
        exact ⟨by decide, by decide⟩
  have hmatch : likeMatch ('%' :: '"' :: (tag.data ++ ['"', '%'])) (jsonDumpsStrings u.tags)
      = true := by
    rw [hpat, hab]
    exact likeMatch_infix _ a _ b hplain hmid
  refine ⟨(db.telegram_users.filter
      (fun u2 => likeMatch ('%' :: '"' :: (tag.data ++ ['"', '%'])) (jsonDumpsStrings u2.tags))).map
        (·.chat_id), ?_, ?_⟩
  · unfold get_users_by_tag
    rw [hlex]
    simp
  · exact List.mem_map_of_mem _ (List.mem_filter.mpr ⟨hu, hmatch⟩)

theorem by_tag_contains_complete_witness :
    ∃ res, get_users_by_tag ⟨[⟨"u1", "User", ["vip"]⟩], [], []⟩ "VIP" = some res
      ∧ "u1" ∈ res :=
  by_tag_contains_complete ⟨[⟨"u1", "User", ["vip"]⟩], [], []⟩ "VIP"
    ⟨"u1", "User", ["vip"]⟩ "vip" (by decide) (by decide) (by decide) (by decide) (by decide)

/-! Lemmas about explicit-id parsing. -/

theorem processTokens_cons (t : List Char) (ts : List (List Char)) :
    processTokens (t :: ts)
      = (if (stripChars t).isEmpty then [] else [stripChars t]) ++ processTokens ts := by
  by_cases h : (stripChars t).isEmpty <;> simp [processTokens, List.filter_cons, h]

theorem splitInv : ∀ (n : Nat) (s : List Char), s.length ≤ n → noLoneNewlines s = true →
    (splitOnSep (fun c => c == ',') (replaceCRLF s)).1 = (splitOnSep newlineOrComma s).1
  ∧ processTokens (splitOnSep (fun c => c == ',') (replaceCRLF s)).2
      = processTokens (splitOnSep newlineOrComma s).2 := by
  intro n
  induction n with
  | zero =>
    intro s hs _
    have hnil : s = [] := List.eq_nil_of_length_eq_zero (Nat.le_zero.mp hs)
    subst hnil
    exact ⟨rfl, rfl⟩
  | succ n ih =>
    intro s hs hnl
    cases s with
    | nil => exact ⟨rfl, rfl⟩
    | cons c rest =>
      cases rest with
      | nil =>
        have h1 : c ≠ '\n' ∧ c ≠ '\r' := by
          simpa [noLoneNewlines] using hnl
        by_cases hc : c = ','
        · subst hc
          exact ⟨rfl, rfl⟩
        · constructor
          · simp [replaceCRLF, splitOnSep, newlineOrComma, hc, h1.1, h1.2]
          · simp [replaceCRLF, splitOnSep, newlineOrComma, hc, h1.1, h1.2]
      | cons c2 rest2 =>
        have hlen2 : rest2.length ≤ n := by
          simp only [List.length_cons] at hs
          omega
        have hlen1 : (c2 :: rest2).length ≤ n := by
          simp only [List.length_cons] at hs ⊢
          omega
        by_cases hn : c = '\n'
        · rw [hn] at hnl
          simp [noLoneNewlines] at hnl
        by_cases hr : c = '\r'
        · subst hr
          have h2 : c2 = '\n' ∧ noLoneNewlines rest2 = true := by
            simpa [noLoneNewlines] using hnl
          obtain ⟨hc2, hnl2⟩ := h2
          subst hc2
          have ihr := ih rest2 hlen2 hnl2
          constructor
          · simp [replaceCRLF, splitOnSep, newlineOrComma]
          · have e1 : (splitOnSep (fun c => c == ',') (replaceCRLF ('\r' :: '\n' :: rest2))).2
                = (splitOnSep (fun c => c == ',') (replaceCRLF rest2)).1
                  :: (splitOnSep (fun c => c == ',') (replaceCRLF rest2)).2 := by
              simp [replaceCRLF, splitOnSep]
            have e2 : (splitOnSep newlineOrComma ('\r' :: '\n' :: rest2)).2
                = [] :: (splitOnSep newlineOrComma rest2).1
                     :: (splitOnSep newlineOrComma rest2).2 := by
              simp [splitOnSep, newlineOrComma]
            rw [e1, e2, processTokens_cons, processTokens_cons, processTokens_cons,
               ihr.1, ihr.2]
            simp [stripChars]
        · have hrep : replaceCRLF (c :: c2 :: rest2) = c :: replaceCRLF (c2 :: rest2) := by
            simp only [replaceCRLF]
            rw [if_neg]
            rintro ⟨h1, _⟩
            exact hr h1
          have hnl2 : noLoneNewlines (c2 :: rest2) = true := by
            simpa [noLoneNewlines, hn, hr] using hnl
          have ihr := ih (c2 :: rest2) hlen1 hnl2
          by_cases hc : c = ','
          · subst hc
            constructor
            · simp [hrep, splitOnSep, newlineOrComma]
            · have e1 : (splitOnSep (fun c => c == ',') (replaceCRLF (',' :: c2 :: rest2))).2
                  = (splitOnSep (fun c => c == ',') (replaceCRLF (c2 :: rest2))).1
                    :: (splitOnSep (fun c => c == ',') (replaceCRLF (c2 :: rest2))).2 := by
                simp [hrep, splitOnSep]
              have e2 : (splitOnSep newlineOrComma (',' :: c2 :: rest2)).2
                  = (splitOnSep newlineOrComma (c2 :: rest2)).1
                    :: (splitOnSep newlineOrComma (c2 :: rest2)).2 := by
                simp [splitOnSep, newlineOrComma]
              rw [e1, e2, processTokens_cons, processTokens_cons, ihr.1, ihr.2]
          · have hsep : newlineOrComma c = false := by
              simp [newlineOrComma, hc, hn, hr]
            constructor
            · have e1 : (splitOnSep (fun c3 => c3 == ',') (replaceCRLF (c :: c2 :: rest2))).1
                  = c :: (splitOnSep (fun c3 => c3 == ',') (replaceCRLF (c2 :: rest2))).1 := by
                simp [hrep, splitOnSep, hc]
              have e2 : (splitOnSep newlineOrComma (c :: c2 :: rest2)).1
                  = c :: (splitOnSep newlineOrComma (c2 :: rest2)).1 := by
                simp [splitOnSep, hsep]
              rw [e1, e2, ihr.1]
            · have e1 : (splitOnSep (fun c3 => c3 == ',') (replaceCRLF (c :: c2 :: rest2))).2
                  = (splitOnSep (fun c3 => c3 == ',') (replaceCRLF (c2 :: rest2))).2 := by
                simp [hrep, splitOnSep, hc]
              have e2 : (splitOnSep newlineOrComma (c :: c2 :: rest2)).2
                  = (splitOnSep newlineOrComma (c2 :: rest2)).2 := by
                simp [splitOnSep, hsep]
              rw [e1, e2]
              exact ihr.2

/-- C9 counterexample: a lone LF is not a separator for the code
(`replace('\r\n', ',')` only handles CRLF), so `"a\nb"` resolves to the
single token `"a\nb"`, while splitting on comma-or-newline separators as
claimed would give `["a", "b"]`. -/
theorem explicit_ids_lone_newline :
    resolveExplicit "a\nb" = ["a\nb"]
  ∧ resolveExplicitClaim "a\nb" = ["a", "b"]
  ∧ resolveExplicit "a\nb" ≠ resolveExplicitClaim "a\nb" := by
  refine ⟨by decide, by decide, by decide⟩

/-- C9 (amended): explicit-id resolution replaces each CRLF pair by a comma
and then splits on commas, trims surrounding whitespace from each token,
drops empty tokens and performs no deduplication; on every input in which
each newline occurs as part of a CRLF pair this coincides with splitting on
comma-or-newline separators, but a lone LF or CR is not a separator. -/
theorem explicit_ids_crlf_tokens (s : String) (h : noLoneNewlines s.data = true) :
    resolveExplicit s = resolveExplicitClaim s := by
  have hinv := splitInv s.data.length s.data (le_refl _) h
  unfold resolveExplicit resolveExplicitClaim resolveExplicitChars splitTokens
  congr 1
  rw [processTokens_cons, processTokens_cons, hinv.1, hinv.2]

theorem explicit_ids_crlf_tokens_witness :
    resolveExplicit " a ,a\r\nb,,c " = resolveExplicitClaim " a ,a\r\nb,,c "
  ∧ resolveExplicit " a ,a\r\nb,,c " = ["a", "a", "b", "c"] :=
  ⟨explicit_ids_crlf_tokens " a ,a\r\nb,,c " (by decide), by decide⟩

/-- C1: the terminal status persisted for a dispatched scheduled message is
SENT iff the recipient list is empty or at least one send succeeded, FAILED
iff the list is non-empty and no send succeeded; an empty broadcast yields
SENT with zero log entries, and `send_scheduled_message_async` persists
exactly this status on the message's row. -/
theorem scheduled_dispatch_terminal_status (bot : BotCall → SendOutcome) (now : Nat)
    (m : MsgRow) (db : DB) :
    (scheduledStatus bot now m = "SENT" ↔
        m.target_ids.length = 0 ∨ 0 < (dispatchFor bot now m).1)
  ∧ (scheduledStatus bot now m = "FAILED" ↔
        0 < m.target_ids.length ∧ (dispatchFor bot now m).1 = 0)
  ∧ (m.target_ids = [] →
        scheduledStatus bot now m = "SENT" ∧ (dispatchFor bot now m).2 = [])
  ∧ (sendScheduledMessageAsync bot now db m).scheduled_messages
      = db.scheduled_messages.map
          (fun r => if r.id = m.id then { r with status := scheduledStatus bot now m } else r) := by
  have hdisp : m.target_ids = [] → (dispatchFor bot now m).2 = [] := by
    intro h
    simp [dispatchFor, dispatch, h, pySet, pySetAux, dispatchList]
  by_cases hc : 0 < (dispatchFor bot now m).1 ∨ m.target_ids.length = 0
  · have hs : scheduledStatus bot now m = "SENT" := by
      unfold scheduledStatus
      rw [if_pos hc]
    refine ⟨?_, ?_, ?_, rfl⟩
    · rw [hs]
      exact ⟨fun _ => Or.symm hc, fun _ => rfl⟩
    · rw [hs]
      constructor
      · intro h
        exact absurd h (by decide)
      · rintro ⟨h1, h2⟩
        exfalso
        rcases hc with h3 | h3 <;> omega
    · intro h
      exact ⟨hs, hdisp h⟩
  · have hs : scheduledStatus bot now m = "FAILED" := by
      unfold scheduledStatus
      rw [if_neg hc]
    push_neg at hc
    have hcnt : (dispatchFor bot now m).1 = 0 := by omega
    have hlen : 0 < m.target_ids.length := by
      rcases hc with ⟨_, h2⟩
      omega
    refine ⟨?_, ?_, ?_, rfl⟩
    · rw [hs]
      constructor
      · intro h
        exact absurd h (by decide)
      · rintro (h | h) <;> (exfalso; omega)
    · rw [hs]
      exact ⟨fun _ => ⟨hlen, hcnt⟩, fun _ => rfl⟩
    · intro h
      exfalso
      rw [h] at hlen
      simp at hlen

theorem scheduled_dispatch_terminal_status_witness :
    scheduledStatus (fun _ => SendOutcome.ok) 0 ⟨1, "hi", [], "", "", 0, "PENDING"⟩ = "SENT"
  ∧ (dispatchFor (fun _ => SendOutcome.ok) 0 ⟨1, "hi", [], "", "", 0, "PENDING"⟩).2 = [] :=
  (scheduled_dispatch_terminal_status (fun _ => SendOutcome.ok) 0
      ⟨1, "hi", [], "", "", 0, "PENDING"⟩ ⟨[], [], []⟩).2.2.1 rfl

/-- C3: dispatch deduplicates its recipient list, writing exactly one log
entry per distinct recipient id (in first-occurrence order), so dispatching
a list equals dispatching its deduplicated set; dispatching to
`["A", "A", "B"]` writes exactly 2 log entries, one for A and one for B. -/
theorem dispatch_dedup :
    (∀ (bot : BotCall → SendOutcome) (now : Nat) (mu mt text : String) (ids : List String),
        ((dispatch bot now mu mt text ids).2.map (·.chat_id)) = pySet ids)
  ∧ (∀ (bot : BotCall → SendOutcome) (now : Nat) (mu mt text : String) (ids : List String),
        dispatch bot now mu mt text ids = dispatch bot now mu mt text (pySet ids))
  ∧ ((dispatch (fun _ => SendOutcome.ok) 0 "" "" "hi" ["A", "A", "B"]).2.map (·.chat_id)
        = ["A", "B"]
     ∧ (dispatch (fun _ => SendOutcome.ok) 0 "" "" "hi" ["A", "A", "B"]).2.length = 2) := by
  refine ⟨?_, ?_, by decide, by decide⟩
  · intro bot now mu mt text ids
    exact dispatchList_map_chat_id bot now mu mt text (pySet ids)
  · intro bot now mu mt text ids
    unfold dispatch
    rw [pySet_idem]

/-- C4: a per-recipient failure never prevents the attempts to the remaining
recipients (one log entry per distinct recipient regardless of the sender's
behaviour, and dispatch is a total function, so it never raises); with a
sender failing for id "2" only, dispatching to `["1", "2", "3"]` yields
`sent_count = 2`, one FAILED entry for "2", and all three attempts made. -/
theorem dispatch_failure_isolation :
    (∀ (bot : BotCall → SendOutcome) (now : Nat) (mu mt text : String) (ids : List String),
        (dispatch bot now mu mt text ids).2.length = (pySet ids).length)
  ∧ ((dispatch failsTwo 0 "" "" "hi" ["1", "2", "3"]).1 = 2
     ∧ (dispatch failsTwo 0 "" "" "hi" ["1", "2", "3"]).2.filter (fun e => e.status == "FAILED")
         = [⟨"2", 0, "FAILED", some "boom"⟩]
     ∧ (dispatch failsTwo 0 "" "" "hi" ["1", "2", "3"]).2.map (·.chat_id) = ["1", "2", "3"]) := by
  refine ⟨?_, by decide, by decide, by decide⟩
  intro bot now mu mt text ids
  exact dispatchList_length bot now mu mt text (pySet ids)

end TBP
